import Mathlib

/-!
Shallow embedding of the cloudability-api extraction pipeline
(src/write-data-to-csv.py, src/get-daily-spend.py, src/cloudability-etl.py)
and proofs about its claimed properties.

Conventions of the embedding:
* Python dates are modelled as integers (days); `datetime.timedelta(days=n)`
  is integer addition.
* `requests` responses are modelled by their HTTP status codes; each call to
  `session.get` consumes the next element of a response script (a list).
  `Response.raise_for_status` raises exactly for status codes in 400..599.
* Python exceptions are modelled with `Except`/`Option`; a loop whose script
  ran out, or whose fuel ran out, yields `none` / an explicit error value.
* `decimal.Decimal` values are modelled by sign, coefficient and scale, the
  fragment of the constructor grammar the pipeline feeds it: an optional
  sign, digits, and at most one decimal point (no exponent or specials).
-/

instance {ε α : Type _} [DecidableEq ε] [DecidableEq α] : DecidableEq (Except ε α) :=
  fun x y =>
    match x, y with
    | .ok a, .ok b => decidable_of_iff (a = b) (by simp)
    | .ok _, .error _ => isFalse (by simp)
    | .error _, .ok _ => isFalse (by simp)
    | .error e, .error f => decidable_of_iff (e = f) (by simp)

/-- Error values used across the embedding: `parseError` models
`decimal.InvalidOperation` (the spec's ParseError), `noneArg` models the
TypeError/AttributeError Python raises when a metric field is missing
(`None` passed to `Decimal`/`lstrip`), `attrError` a `.get` call on a
non-dict JSON body, `fuelOut` exhaustion of loop fuel and `pollEnded`
exhaustion of a poll-response script. -/
inductive Err
  | parseError
  | noneArg
  | attrError
  | fuelOut
  | pollEnded
  deriving DecidableEq

/-- A `decimal.Decimal` value as produced from a plain literal: sign,
integer coefficient, and decimal scale (number of digits after the point).
`Decimal("12.340")` is `⟨false, 12340, 3⟩`; it differs from
`Decimal("12.34") = ⟨false, 1234, 2⟩` as a value even though both denote
the same rational number, which is how Decimal preserves trailing zeros. -/
structure PyDecimal where
  neg : Bool
  coeff : Nat
  scale : Nat
  deriving DecidableEq

/-- The exact rational number denoted by a `PyDecimal`. -/
def PyDecimal.val (d : PyDecimal) : ℚ :=
  (if d.neg then -1 else 1) * (d.coeff : ℚ) / 10 ^ d.scale

/-- Numeric value of a digit string, most significant digit first. -/
def digitsToNat (cs : List Char) : Nat :=
  cs.foldl (fun acc c => acc * 10 + (c.toNat - '0'.toNat)) 0

/-- Split an optional leading sign from a literal, as the `Decimal`
constructor does. -/
def splitSign : List Char → Bool × List Char
  | [] => (false, [])
  | c :: cs =>
    if c = '-' then (true, cs)
    else if c = '+' then (false, cs)
    else (false, c :: cs)

/-- Split a literal at its first decimal point, if any. -/
def splitPoint : List Char → List Char × Option (List Char)
  | [] => ([], none)
  | c :: cs =>
    if c = '.' then ([], some cs)
    else
      let r := splitPoint cs
      (c :: r.1, r.2)

/-- Assemble a decimal from its sign, integer part and optional fractional
part: both parts must be digit-only and at least one digit must be present
(`"1."` and `".5"` are valid, `"."` and `""` are not). -/
def decFromParts (neg : Bool) (ip : List Char) (fpo : Option (List Char)) :
    Except Err PyDecimal :=
  let fp := fpo.getD []
  if ip.all Char.isDigit && fp.all Char.isDigit && !(ip.isEmpty && fp.isEmpty) then
    .ok ⟨neg, digitsToNat (ip ++ fp), fp.length⟩
  else
    .error .parseError

/-- The `decimal.Decimal` constructor on a character list: optional sign,
then digits with at most one decimal point and at least one digit overall;
anything else is an InvalidOperation (ParseError). -/
def decParseL (cs : List Char) : Except Err PyDecimal :=
  decFromParts (splitSign cs).1 (splitPoint (splitSign cs).2).1
    (splitPoint (splitSign cs).2).2

/-- The `decimal.Decimal` constructor on a string. -/
def decParse (s : String) : Except Err PyDecimal :=
  decParseL s.toList

/-- src/write-data-to-csv.py lines 79-82 (same in the other two files):
`value.lstrip("$")` strips every leading dollar sign, `value.replace(",", "")`
removes every comma, and the remainder is handed to `decimal.Decimal`. -/
def clean_currency (value : String) : Except Err PyDecimal :=
  decParseL ((value.toList.dropWhile (fun c => decide (c = '$'))).filter
    (fun c => decide (¬ c = ',')))

/-- Outcome of one `get_url` call: the returned response's status code, or
the status code carried by the raised `requests.exceptions.HTTPError`. -/
inductive GetResult
  | ok (code : Nat)
  | httpError (code : Nat)
  deriving DecidableEq

/-- src/write-data-to-csv.py lines 62-76 (`get_url`): issue GETs against a
script of response status codes; `raise_for_status` raises exactly for
codes in 400..599; a 502 retries the identical request immediately, any
other raising code re-raises, and a non-raising code is returned.
Returns the number of requests issued together with the outcome; `none`
means the response script was exhausted while the loop still wanted to
retry. -/
def get_url : List Nat → Option (Nat × GetResult)
  | [] => none
  | c :: rest =>
    if 400 ≤ c ∧ c < 600 then
      if c = 502 then
        (get_url rest).map (fun p => (p.1 + 1, p.2))
      else
        some (1, .httpError c)
    else
      some (1, .ok c)

/-- A configured vendor account (`Settings.vendor_accounts` guarantees both
fields are present, so they are plain strings). -/
structure Vendor where
  vendor_id : String
  vendor_name : String
  deriving DecidableEq

/-- One raw result object from the results endpoint; every field is read
with `dict.get`, hence `Option String` (`none` models an absent key, which
`dict.get` turns into Python `None`). -/
structure RawRow where
  resource_identifier : Option String
  enhanced_service_name : Option String
  tag1 : Option String
  tag8 : Option String
  tag13 : Option String
  date : Option String
  unblended_cost : Option String
  adjusted_cost : Option String
  usage_hours : Option String
  usage_quantity : Option String
  deriving DecidableEq

/-- The sink-facing record built by `parse_result_row`, fields in the order
the source dict literal lists them. -/
structure CanonRow where
  vendor_id : String
  vendor_name : String
  resource_id : Option String
  service_name : Option String
  name : Option String
  owner_email : String
  date : Option String
  unblended_cost : PyDecimal
  adjusted_cost : PyDecimal
  usage_hours : PyDecimal
  usage_quantity : PyDecimal
  application_env : String
  deriving DecidableEq

/-- A metric field handed to `clean_currency`/`Decimal`: Python raises
(TypeError/AttributeError) when the field is missing and `None` is passed. -/
def reqStr : Option String → Except Err String
  | none => .error .noneArg
  | some s => .ok s

/-- src/write-data-to-csv.py lines 85-105 (`parse_result_row`, identical in
src/get-daily-spend.py): the tag13/tag8 values `"(not set)"`, `""` and
`None` become `"(unknown)"`, every other dimension passes through
unchanged, and the four metric strings go through `clean_currency` /
`decimal.Decimal`. -/
def parse_result_row (vendor : Vendor) (row : RawRow) : Except Err CanonRow := do
  let owner_email :=
    if row.tag13 = some "(not set)" ∨ row.tag13 = some "" ∨ row.tag13 = none then
      "(unknown)"
    else
      row.tag13.getD ""
  let application_env :=
    if row.tag8 = some "(not set)" ∨ row.tag8 = some "" ∨ row.tag8 = none then
      "(unknown)"
    else
      row.tag8.getD ""
  let ub ← clean_currency (← reqStr row.unblended_cost)
  let ac ← clean_currency (← reqStr row.adjusted_cost)
  let uh ← decParseL (← reqStr row.usage_hours).toList
  let uq ← decParseL (← reqStr row.usage_quantity).toList
  .ok
    { vendor_id := vendor.vendor_id
      vendor_name := vendor.vendor_name
      resource_id := row.resource_identifier
      service_name := row.enhanced_service_name
      name := row.tag1
      owner_email := owner_email
      date := row.date
      unblended_cost := ub
      adjusted_cost := ac
      usage_hours := uh
      usage_quantity := uq
      application_env := application_env }

/-- Observable protocol events of one window: the fixed sleep before each
status poll, a status GET, and a results GET. -/
inductive Ev
  | sleep (seconds : Nat)
  | getStatus
  | getResults
  deriving DecidableEq

/-- src/write-data-to-csv.py lines 116-124 (`wait_for_job`, identical in
src/get-daily-spend.py): starting from status `requested`, sleep 5 then GET
the state URL, until the reported status is `errored` or `finished`.  The
argument is the script of statuses the state endpoint reports; the result
is the event trace plus the terminal status, or `none` when the script is
exhausted while the loop still polls. -/
def wait_for_job : List String → Option (List Ev × String)
  | [] => none
  | s :: rest =>
    if s = "errored" ∨ s = "finished" then
      some ([Ev.sleep 5, Ev.getStatus], s)
    else
      match wait_for_job rest with
      | none => none
      | some (t, st) => some (Ev.sleep 5 :: Ev.getStatus :: t, st)

/-- src/write-data-to-csv.py lines 148-152: after `wait_for_job` returns,
the results URL is fetched exactly when the terminal status is `finished`.
The full event trace of one window's job handling. -/
def job_phase (polls : List String) : Option (List Ev) :=
  match wait_for_job polls with
  | none => none
  | some (t, st) => some (t ++ if st = "finished" then [Ev.getResults] else [])

/-- The trace of `n` poll rounds: each status GET preceded by the fixed
5-second sleep. -/
def pollRounds : Nat → List Ev
  | 0 => []
  | n + 1 => Ev.sleep 5 :: Ev.getStatus :: pollRounds n

/-- src/cloudability-etl.py lines 102-110: the inline poll loop of the etl
variant sleeps 10 and polls until the status is `finished` — `errored` is
not a stopping condition there.  Returns the number of status GETs issued
and the final status, or `none` when the script is exhausted while the
loop still polls. -/
def wait_etl : List String → Option (Nat × String)
  | [] => none
  | s :: rest =>
    if s = "finished" then
      some (1, s)
    else
      (wait_etl rest).map (fun p => (p.1 + 1, p.2))

/-- The enqueue response body: a flat JSON object (string keys, integer
values — the job id is an integer) or some non-object JSON value. -/
inductive EnqueueBody
  | obj (fields : List (String × Int))
  | nonObj
  deriving DecidableEq

/-- Python `dict.get`: the value of the first matching key, else `None`. -/
def dictGet (fields : List (String × Int)) (k : String) : Option Int :=
  (fields.find? (fun p => decide (p.1 = k))).map (fun p => p.2)

/-- src/write-data-to-csv.py lines 108-113 (`submit_job`, identical in
src/get-daily-spend.py): parse the enqueue response as JSON and read the
job id with `enqueue_data.get("id")` — a missing id yields `None` and the
function returns normally; only a non-dict body raises
(AttributeError on `.get`). -/
def submit_job (body : EnqueueBody) : Except Err (Option Int) :=
  match body with
  | .obj fields => .ok (dictGet fields "id")
  | .nonObj => .error .attrError

/-- src/write-data-to-csv.py lines 140-158 (window skeleton only), with
`datetime.date.today()` modelled as a call-indexed clock: the guard of
iteration `k` reads `clock k`, exactly as the source re-evaluates
`datetime.date.today()` at every loop test.  Each window is
`(start, start + len)` and the next start is `end + 1`.  `none` models
running out of fuel while the guard still holds. -/
def windowsClock : Nat → Int → Int → (Nat → Int) → Option (List (Int × Int))
  | 0, start, _len, clock => if start < clock 0 then none else some []
  | fuel + 1, start, len, clock =>
    if start < clock 0 then
      (windowsClock fuel (start + len + 1) len (fun k => clock (k + 1))).map
        (fun ws => (start, start + len) :: ws)
    else
      some []

/-- The same window loop when the clock is constant for the whole run —
the only situation in which the claims' phrase "the run's reference today"
denotes a single value. -/
def windowsFixed : Nat → Int → Int → Int → Option (List (Int × Int))
  | 0, start, _len, today => if start < today then none else some []
  | fuel + 1, start, len, today =>
    if start < today then
      (windowsFixed fuel (start + len + 1) len today).map
        (fun ws => (start, start + len) :: ws)
    else
      some []

/-- Python `int(str)` on the plain-literal fragment this configuration
uses: an optional minus sign then decimal digits; anything else raises
(modelled as `none`). -/
def pyInt (s : String) : Option Int :=
  match s.toList with
  | '-' :: ds =>
    if ds.all Char.isDigit && !ds.isEmpty then some (-(digitsToNat ds : Int)) else none
  | ds =>
    if ds.all Char.isDigit && !ds.isEmpty then some ((digitsToNat ds : Int)) else none

/-- src/write-data-to-csv.py lines 36-38: `int(os.getenv("REPORT_LENGTH_DAYS",
"7"))` — Python `int` accepts any signed integer literal, so negative window
lengths are not rejected. -/
def report_length_days (env : Option String) : Option Int :=
  pyInt (env.getD "7")

/-- The external behaviour of one window's job: the status script the state
endpoint reports and the rows the results endpoint returns. -/
structure WinEnv where
  polls : List String
  results : List RawRow
  deriving DecidableEq

/-- What the orchestrator records for one window: its date range, whether a
results fetch was issued, and the canonical rows yielded from it. -/
structure WinResult where
  win_start : Int
  win_end : Int
  fetched : Bool
  rows : List CanonRow
  deriving DecidableEq

/-- The results loop `for result in results_response.json().get("results"):
yield parse_result_row(vendor, result)` — rows mapped in order, the first
raised exception aborting the run. -/
def mapRows (v : Vendor) : List RawRow → Except Err (List CanonRow)
  | [] => .ok []
  | r :: rs => do
    let c ← parse_result_row v r
    let cs ← mapRows v rs
    .ok (c :: cs)

/-- src/write-data-to-csv.py lines 140-158 (identical in
src/get-daily-spend.py lines 186-204), one vendor's window loop, with
`datetime.date.today()` constant (= `today`) for the run: while
`start < today`, run one window `[start, start + len]`: wait for the job
(`env w` is window `w`'s environment); if it finished, fetch and map the
results, else record the failure and fetch nothing; then continue from
`end + 1`. -/
def runVendor (len today : Int) (v : Vendor) :
    Nat → (Nat → WinEnv) → Int → Except Err (List WinResult)
  | 0, _env, start => if start < today then .error .fuelOut else .ok []
  | fuel + 1, env, start =>
    if start < today then
      match wait_for_job (env 0).polls with
      | none => .error .pollEnded
      | some (_, st) =>
        if st = "finished" then do
          let rows ← mapRows v (env 0).results
          let rest ← runVendor len today v fuel (fun k => env (k + 1)) (start + len + 1)
          .ok (⟨start, start + len, true, rows⟩ :: rest)
        else do
          let rest ← runVendor len today v fuel (fun k => env (k + 1)) (start + len + 1)
          .ok (⟨start, start + len, false, []⟩ :: rest)
    else
      .ok []

/-- src/write-data-to-csv.py lines 135-158: the outer loop over vendor
accounts; every vendor restarts from the same configured start date, and
`envs b` is the window-environment oracle of vendor `b`. -/
def get_data (len today start : Int) (fuel : Nat) :
    (Nat → Nat → WinEnv) → List Vendor → Except Err (List (Vendor × List WinResult))
  | _envs, [] => .ok []
  | envs, v :: vs => do
    let w ← runVendor len today v fuel (envs 0) start
    let rest ← get_data len today start fuel (fun k => envs (k + 1)) vs
    .ok ((v, w) :: rest)

/-- The tuple Python's f-string interpolates per row, and the sink's
conflict-target columns of src/get-daily-spend.py lines 17-30:
`(owner_email, date, resource_id, name)`. -/
def rowKey (r : CanonRow) : String × Option String × Option String × Option String :=
  (r.owner_email, r.date, r.resource_id, r.name)

/-- The `do update set` list of src/get-daily-spend.py lines 25-28: the
stored row keeps its key columns and takes the incoming row's
`adjusted_cost, usage_hours, service_name, unblended_cost, usage_quantity,
vendor_id, vendor_name, application_env`. -/
def updateRow (old r : CanonRow) : CanonRow :=
  { old with
    adjusted_cost := r.adjusted_cost
    usage_hours := r.usage_hours
    service_name := r.service_name
    unblended_cost := r.unblended_cost
    usage_quantity := r.usage_quantity
    vendor_id := r.vendor_id
    vendor_name := r.vendor_name
    application_env := r.application_env }

/-- src/get-daily-spend.py lines 17-30 (`Database.add_record`): the
`insert ... on conflict (owner_email, date, resource_id, name) do update`
upsert, modelled against a table held as a row list: if some stored row
shares the key, the conflicting row is updated in place, else the new row
is appended. -/
def add_record (table : List CanonRow) (r : CanonRow) : List CanonRow :=
  if table.any (fun x => decide (rowKey x = rowKey r)) then
    table.map (fun x => if rowKey x = rowKey r then updateRow x r else x)
  else
    table ++ [r]

/-- Number of stored rows sharing a key. -/
def countKey (k : String × Option String × Option String × Option String)
    (table : List CanonRow) : Nat :=
  (table.filter (fun x => decide (rowKey x = k))).length

/-- The mutable (non-key) fields of a stored row, in the order the
`do update set` clause writes them. -/
def mutFields (r : CanonRow) :
    PyDecimal × PyDecimal × Option String × PyDecimal × PyDecimal ×
      String × String × String :=
  (r.adjusted_cost, r.usage_hours, r.service_name, r.unblended_cost,
    r.usage_quantity, r.vendor_id, r.vendor_name, r.application_env)

/-- Concrete data for witnesses: a vendor account. -/
def c4vendor : Vendor := ⟨"V1", "Acme"⟩

/-- A raw row whose tag13 is literally the marker string. -/
def c4rowNX : RawRow :=
  ⟨some "r", some "svc", some "nm", some "env", some "(unknown)", some "d",
    some "1", some "1", some "1", some "1"⟩

/-- A raw row with an ordinary owner tag. -/
def c4row2 : RawRow :=
  ⟨some "r", some "svc", some "nm", some "prod", some "a@b", some "d",
    some "1", some "1", some "1", some "1"⟩

/-- A raw row with both tags missing. -/
def c3raw : RawRow :=
  ⟨some "r", some "svc", some "nm", none, none, some "2024-01-01",
    some "1", some "1", some "1", some "1"⟩

/-- The canonical row `parse_result_row c4vendor c3raw` produces. -/
def c3out : CanonRow :=
  ⟨"V1", "Acme", some "r", some "svc", some "nm", "(unknown)", some "2024-01-01",
    ⟨false, 1, 0⟩, ⟨false, 1, 0⟩, ⟨false, 1, 0⟩, ⟨false, 1, 0⟩, "(unknown)"⟩

/-- A window-environment oracle whose first window errors and whose later
windows finish with one row. -/
def c3envs : Nat → Nat → WinEnv :=
  fun _ w => if w = 0 then ⟨["running", "errored"], []⟩ else ⟨["finished"], [c3raw]⟩

/-- The orchestration result expected from `c3envs` with two windows. -/
def c3res : List (Vendor × List WinResult) :=
  [(⟨"V1", "Acme"⟩, [⟨0, 0, false, []⟩, ⟨1, 1, true, [c3out]⟩])]

/-- Two sink rows sharing the upsert key with different mutable fields. -/
def c9row1 : CanonRow :=
  ⟨"V1", "A", some "r", some "s1", some "n", "o@x", some "d",
    ⟨false, 1, 0⟩, ⟨false, 1, 0⟩, ⟨false, 1, 0⟩, ⟨false, 1, 0⟩, "e1"⟩

/-- Second row for the upsert witness. -/
def c9row2 : CanonRow :=
  ⟨"V2", "B", some "r", some "s2", some "n", "o@x", some "d",
    ⟨false, 2, 0⟩, ⟨false, 2, 0⟩, ⟨false, 2, 0⟩, ⟨false, 2, 0⟩, "e2"⟩

lemma except_bind_ok {α β : Type} (a : α) (f : α → Except Err β) :
    ((Except.ok a : Except Err α) >>= f) = f a := rfl

lemma except_bind_error {α β : Type} (e : Err) (f : α → Except Err β) :
    ((Except.error e : Except Err α) >>= f) = Except.error e := rfl

/-- C2 counterexample: the claim says every non-2xx first response other
than 502 fails with an HttpError, but `raise_for_status` only raises for
status codes 400..599; a 304 (non-2xx) first response is returned as a
success after exactly one request. -/
theorem c2_counterexample :
    get_url [304] = some (1, GetResult.ok 304) ∧ ¬(200 ≤ 304 ∧ 304 < 300) := by
  decide

/-- C2 (amended): after any number of 502 responses, the request is retried
with no limit and the first non-502 response decides the outcome: a status
in 400..599 raises an HttpError carrying that status after exactly one more
request, and any other status (2xx, but also 1xx/3xx) is returned as the
success.  With k = 2 and c = 200 this is the `[502, 502, 200]` scenario
(3 requests, 200 returned); with k = 0 and c = 404 it is the `[404]`
scenario (1 request, HttpError 404). -/
theorem c2_amended (k c : Nat) (hc : ¬ c = 502) :
    get_url (List.replicate k 502 ++ [c]) =
      some (k + 1,
        if 400 ≤ c ∧ c < 600 then GetResult.httpError c else GetResult.ok c) := by
  induction k with
  | zero =>
    show get_url [c] = _
    by_cases h4 : 400 ≤ c ∧ c < 600
    · rw [if_pos h4]
      unfold get_url
      rw [if_pos h4, if_neg hc]
    · rw [if_neg h4]
      unfold get_url
      rw [if_neg h4]
  | succ n ih =>
    show get_url (502 :: (List.replicate n 502 ++ [c])) = _
    unfold get_url
    rw [if_pos (by omega : 400 ≤ 502 ∧ 502 < 600), if_pos rfl, ih]
    rfl

/-- C2 witness: the two scenarios of the claim, via `c2_amended`. -/
theorem c2_witness :
    get_url [502, 502, 200] = some (3, GetResult.ok 200) ∧
      get_url [404] = some (1, GetResult.httpError 404) := by
  constructor
  · have h := c2_amended 2 200 (by decide)
    simpa using h
  · have h := c2_amended 0 404 (by decide)
    simpa using h

lemma wait_for_job_spec (pre post : List String) (t : String)
    (hpre : ∀ s ∈ pre, ¬(s = "errored" ∨ s = "finished"))
    (ht : t = "errored" ∨ t = "finished") :
    wait_for_job (pre ++ t :: post) = some (pollRounds (pre.length + 1), t) := by
  induction pre with
  | nil =>
    show wait_for_job (t :: post) = _
    unfold wait_for_job
    rw [if_pos ht]
    rfl
  | cons s pre ih =>
    have hs := hpre s (by simp)
    have ih' := ih (fun x hx => hpre x (by simp [hx]))
    show wait_for_job (s :: (pre ++ t :: post)) = _
    unfold wait_for_job
    rw [if_neg hs, ih']
    rfl

/-- C1 counterexample: the claim (sourced also from the cloudability-etl
variant's poll loop) says polling stops at the first `errored` or
`finished` status, so responses `[running, errored]` mean exactly 2 status
calls and no more.  The etl loop stops only at `finished`: with the script
`[running, errored]` it is still polling when the script runs out, and
with `[running, errored, finished]` it issues a third status call. -/
theorem c1_counterexample :
    wait_etl ["running", "errored"] = none ∧
      wait_etl ["running", "errored", "finished"] = some (3, "finished") := by
  decide

/-- C1 (amended): for the `wait_for_job` pipelines
(write-data-to-csv/get-daily-spend), polling issues a fixed 5-second sleep
then a status GET per attempt and stops exactly at the first `errored` or
`finished` response, with no further status queries; the results URL is
then fetched if and only if the terminal status is `finished`.  (The
cloudability-etl variant instead polls until `finished` only and always
fetches afterwards, so the claim does not hold for it as stated.) -/
theorem c1_amended (pre post : List String) (t : String)
    (hpre : ∀ s ∈ pre, ¬(s = "errored" ∨ s = "finished"))
    (ht : t = "errored" ∨ t = "finished") :
    job_phase (pre ++ t :: post) =
      some (pollRounds (pre.length + 1) ++
        if t = "finished" then [Ev.getResults] else []) := by
  unfold job_phase
  rw [wait_for_job_spec pre post t hpre ht]

/-- C1 witness: `[running, running, finished]` gives 3 poll rounds then a
results fetch; `[running, errored]` gives 2 poll rounds and no fetch. -/
theorem c1_witness :
    job_phase ["running", "running", "finished"] =
      some (pollRounds 3 ++ [Ev.getResults]) ∧
      job_phase ["running", "errored"] = some (pollRounds 2) := by
  constructor
  · have h := c1_amended ["running", "running"] [] "finished" (by decide) (by decide)
    simpa using h
  · have h := c1_amended ["running"] [] "errored" (by decide) (by decide)
    simpa using h

/-- C7 counterexample: the claim says the windows are a function of the
clock reading at orchestration start only.  The source re-evaluates
`datetime.date.today()` in the loop guard: two clocks that agree at the
first guard evaluation but differ afterwards produce different window
sets. -/
theorem c7_counterexample :
    (fun _ : Nat => (1 : Int)) 0 = (fun k : Nat => if k = 0 then (1 : Int) else 2) 0 ∧
      windowsClock 5 0 0 (fun _ => 1) = some [(0, 0)] ∧
      windowsClock 5 0 0 (fun k => if k = 0 then 1 else 2) = some [(0, 0), (1, 1)] ∧
      ¬ windowsClock 5 0 0 (fun _ : Nat => (1 : Int)) =
        windowsClock 5 0 0 (fun k : Nat => if k = 0 then (1 : Int) else 2) := by
  refine ⟨by decide, by decide, by decide, by decide⟩

/-- C7 (amended): the loop's upper bound is re-evaluated at every
iteration; only when the clock is constant for the whole run does the loop
coincide with the evaluate-once plan the claim describes. -/
theorem c7_amended (fuel : Nat) : ∀ start len today : Int,
    windowsClock fuel start len (fun _ => today) = windowsFixed fuel start len today := by
  induction fuel with
  | zero =>
    intro start len today
    rfl
  | succ n ih =>
    intro start len today
    show windowsClock (n + 1) start len (fun _ => today) = _
    unfold windowsClock windowsFixed
    rw [ih]

/-- C8 counterexample: the claim says a response without a job-identifier
field fails with a ProtocolError; `submit_job` reads the id with
`dict.get("id")` and returns normally with `None` — no error of any kind
is raised for a well-formed object body lacking the id. -/
theorem c8_counterexample :
    submit_job (EnqueueBody.obj []) = Except.ok none ∧
      submit_job (EnqueueBody.obj [("job", 3)]) = Except.ok none := by
  decide

/-- C8 (amended): the enqueue response is parsed as JSON and the job
identifier extracted leniently: for any object body the operation never
raises, and it yields the missing marker `None` exactly when no field is
named `id`; only a non-object body raises (an AttributeError on `.get`,
not a ProtocolError). -/
theorem c8_amended (fields : List (String × Int)) :
    (∀ e : Err, ¬ submit_job (EnqueueBody.obj fields) = Except.error e) ∧
      (submit_job (EnqueueBody.obj fields) = Except.ok none ↔
        ∀ p ∈ fields, ¬ p.1 = "id") := by
  constructor
  · intro e h
    simp [submit_job] at h
  · simp [submit_job, dictGet, Option.map_eq_none', List.find?_eq_none]

/-- C8 witness: a body carrying an id does not error, and a body without
one yields the missing marker. -/
theorem c8_witness :
    ¬ submit_job (EnqueueBody.obj [("id", 7)]) = Except.error Err.attrError ∧
      submit_job (EnqueueBody.obj [("job", 3)]) = Except.ok none :=
  ⟨(c8_amended [("id", 7)]).1 Err.attrError,
    (c8_amended [("job", 3)]).2.mpr (by decide)⟩

lemma digitsToNat_foldl_shift (b : List Char) : ∀ n : Nat,
    b.foldl (fun acc c => acc * 10 + (c.toNat - '0'.toNat)) n =
      n * 10 ^ b.length + b.foldl (fun acc c => acc * 10 + (c.toNat - '0'.toNat)) 0 := by
  induction b with
  | nil =>
    intro n
    simp
  | cons c cs ih =>
    intro n
    simp only [List.foldl_cons, List.length_cons]
    rw [ih (n * 10 + (c.toNat - '0'.toNat)), ih (0 * 10 + (c.toNat - '0'.toNat))]
    ring

lemma digitsToNat_append (a b : List Char) :
    digitsToNat (a ++ b) = digitsToNat a * 10 ^ b.length + digitsToNat b := by
  unfold digitsToNat
  rw [List.foldl_append, digitsToNat_foldl_shift]

lemma splitSign_digit (c : Char) (cs : List Char) (h : c.isDigit = true) :
    splitSign (c :: cs) = (false, c :: cs) := by
  have h1 : ¬ c = '-' := by
    intro e
    rw [e] at h
    exact absurd h (by decide)
  have h2 : ¬ c = '+' := by
    intro e
    rw [e] at h
    exact absurd h (by decide)
  show (if c = '-' then (true, cs)
    else if c = '+' then (false, cs) else (false, c :: cs)) = (false, c :: cs)
  rw [if_neg h1, if_neg h2]

lemma splitPoint_no_point (ip : List Char) (hip : ∀ c ∈ ip, ¬ c = '.') :
    ∀ fp : List Char, splitPoint (ip ++ '.' :: fp) = (ip, some fp) := by
  induction ip with
  | nil =>
    intro fp
    show splitPoint ( '.' :: fp) = _
    unfold splitPoint
    rw [if_pos rfl]
  | cons c cs ih =>
    intro fp
    have hc := hip c (by simp)
    show splitPoint (c :: (cs ++ '.' :: fp)) = _
    unfold splitPoint
    rw [if_neg hc, ih (fun x hx => hip x (by simp [hx])) fp]

lemma decParseL_digits (ip fp : List Char) (hip : ip.all Char.isDigit = true)
    (hfp : fp.all Char.isDigit = true) (hne : ¬ ip = []) :
    decParseL (ip ++ '.' :: fp) =
      Except.ok ⟨false, digitsToNat (ip ++ fp), fp.length⟩ := by
  obtain ⟨c, cs, rfl⟩ : ∃ c cs, ip = c :: cs := by
    cases ip with
    | nil => exact absurd rfl hne
    | cons c cs => exact ⟨c, cs, rfl⟩
  have hdig := List.all_eq_true.mp hip
  have hc : c.isDigit = true := hdig c (by simp)
  have hnp : ∀ x ∈ c :: cs, ¬ x = '.' := by
    intro x hx e
    have := hdig x hx
    rw [e] at this
    exact absurd this (by decide)
  unfold decParseL
  rw [show ((c :: cs) ++ '.' :: fp) = c :: (cs ++ '.' :: fp) from rfl,
    splitSign_digit c (cs ++ '.' :: fp) hc]
  show decFromParts false (splitPoint ((c :: cs) ++ '.' :: fp)).1
      (splitPoint ((c :: cs) ++ '.' :: fp)).2 = _
  rw [splitPoint_no_point (c :: cs) hnp fp]
  show decFromParts false (c :: cs) (some fp) = _
  unfold decFromParts
  rw [if_pos (by simp [hip, hfp])]
  simp

/-- C5 counterexample: the claim says a single leading currency symbol is
stripped, after which `"$1.00"` is not a valid decimal literal, so
`"$$1.00"` must fail with a ParseError; the code's `lstrip("$")` strips
every leading dollar sign and the call succeeds with 1.00. -/
theorem c5_counterexample :
    clean_currency "$$1.00" = Except.ok ⟨false, 100, 2⟩ ∧
      decParse "$1.00" = Except.error Err.parseError := by
  decide

/-- C5 (amended): the normalizer strips all leading currency symbols
(not just one), removes all grouping separators, and parses the remainder
as an exact decimal, failing with a ParseError otherwise: `"$1,234.56"`
yields the exact value 123456/100; `"12.340"` parses to scale 3, a Decimal
distinct from `"12.34"` though equal in rational value (no float
rounding); and in general a digit string `ip.fp` parses exactly to
coefficient `digits(ip ++ fp)` at scale `|fp|`, with the coefficient
obeying the place-value equation. -/
theorem c5_amended :
    (clean_currency "$1,234.56" = Except.ok ⟨false, 123456, 2⟩ ∧
        PyDecimal.val ⟨false, 123456, 2⟩ = 123456 / 100) ∧
      (decParse "12.340" = Except.ok ⟨false, 12340, 3⟩ ∧
        decParse "12.34" = Except.ok ⟨false, 1234, 2⟩ ∧
        ¬ (⟨false, 12340, 3⟩ : PyDecimal) = ⟨false, 1234, 2⟩ ∧
        PyDecimal.val ⟨false, 12340, 3⟩ = PyDecimal.val ⟨false, 1234, 2⟩) ∧
      clean_currency "12abc" = Except.error Err.parseError ∧
      ∀ ip fp : List Char, ip.all Char.isDigit = true → fp.all Char.isDigit = true →
        ¬ ip = [] →
        decParseL (ip ++ '.' :: fp) =
            Except.ok ⟨false, digitsToNat (ip ++ fp), fp.length⟩ ∧
          digitsToNat (ip ++ fp) = digitsToNat ip * 10 ^ fp.length + digitsToNat fp := by
  refine ⟨⟨by decide, ?_⟩, ⟨by decide, by decide, by decide, ?_⟩, by decide, ?_⟩
  · norm_num [PyDecimal.val]
  · norm_num [PyDecimal.val]
  · intro ip fp hip hfp hne
    exact ⟨decParseL_digits ip fp hip hfp hne, digitsToNat_append ip fp⟩

/-- C5 witness: the general exactness clause of `c5_amended` at the
concrete digit strings of "1.05". -/
theorem c5_witness :
    decParseL ([ '1' ] ++ '.' :: [ '0', '5' ]) =
      Except.ok ⟨false, digitsToNat ([ '1' ] ++ [ '0', '5' ]), 2⟩ :=
  ((c5_amended.2.2.2) [ '1' ] [ '0', '5' ] (by decide) (by decide) (by decide)).1

lemma windowsFixed_get (fuel : Nat) : ∀ (start len today : Int) (ws : List (Int × Int)),
    windowsFixed fuel start len today = some ws →
    ∀ i (hi : i < ws.length),
      ws.get ⟨i, hi⟩ = (start + (i : Int) * (len + 1), start + (i : Int) * (len + 1) + len) ∧
        start + (i : Int) * (len + 1) < today := by
  induction fuel with
  | zero =>
    intro start len today ws h
    by_cases hlt : start < today
    · rw [show windowsFixed 0 start len today = none from by unfold windowsFixed; rw [if_pos hlt]] at h
      exact Option.noConfusion h
    · rw [show windowsFixed 0 start len today = some [] from by unfold windowsFixed; rw [if_neg hlt]] at h
      obtain rfl := (Option.some.inj h).symm
      intro i hi
      exact absurd hi (by simp)
  | succ n ih =>
    intro start len today ws h
    by_cases hlt : start < today
    · unfold windowsFixed at h
      rw [if_pos hlt, Option.map_eq_some'] at h
      obtain ⟨ws', hws', rfl⟩ := h
      intro i hi
      cases i with
      | zero =>
        constructor
        · simp
        · simpa using hlt
      | succ k =>
        have hk : k < ws'.length := by simpa using hi
        have hrec := ih (start + len + 1) len today ws' hws' k hk
        have hcast : ((k + 1 : Nat) : Int) = (k : Int) + 1 := by push_cast; ring
        have harith : start + ((k : Int) + 1) * (len + 1) =
            start + len + 1 + (k : Int) * (len + 1) := by ring
        constructor
        · show ws'.get ⟨k, hk⟩ = _
          rw [hrec.1, hcast, harith]
        · rw [hcast, harith]
          exact hrec.2
    · unfold windowsFixed at h
      rw [if_neg hlt] at h
      obtain rfl := (Option.some.inj h).symm
      intro i hi
      exact absurd hi (by simp)

/-- C6: every produced window list is contiguous and non-overlapping —
window i ends at start i + len, window i+1 starts at that end + 1 day —
and every window's start is strictly before the run's (fixed) today
bound, which is exactly the loop's stopping condition. -/
theorem c6_thm {fuel : Nat} {start len today : Int} {ws : List (Int × Int)}
    (h : windowsFixed fuel start len today = some ws) :
    (∀ i (hi : i < ws.length), (ws.get ⟨i, hi⟩).2 = (ws.get ⟨i, hi⟩).1 + len) ∧
      (∀ i (hi : i + 1 < ws.length),
        (ws.get ⟨i + 1, hi⟩).1 = (ws.get ⟨i, Nat.lt_of_succ_lt hi⟩).2 + 1) ∧
      (∀ i (hi : i < ws.length), (ws.get ⟨i, hi⟩).1 < today) := by
  refine ⟨?_, ?_, ?_⟩
  · intro i hi
    rw [(windowsFixed_get fuel start len today ws h i hi).1]
  · intro i hi
    rw [(windowsFixed_get fuel start len today ws h (i + 1) hi).1,
      (windowsFixed_get fuel start len today ws h i (Nat.lt_of_succ_lt hi)).1]
    push_cast
    ring
  · intro i hi
    have hg := windowsFixed_get fuel start len today ws h i hi
    rw [hg.1]
    exact hg.2

/-- C6 witness: with start 0, window length 7 and today 10 the theorem's
contiguity clause at i = 0 gives window 1 starting at window 0's end + 1. -/
theorem c6_witness :
    windowsFixed 3 0 7 10 = some [(0, 7), (8, 15)] ∧
      (([((0 : Int), (7 : Int)), (8, 15)]).get ⟨1, by decide⟩).1 =
        (([((0 : Int), (7 : Int)), (8, 15)]).get ⟨0, by decide⟩).2 + 1 :=
  ⟨by decide,
    (c6_thm (by decide : windowsFixed 3 0 7 10 = some [(0, 7), (8, 15)])).2.1 0 (by decide)⟩

lemma windowsFixed_term (today len : Int) (hlen : 0 ≤ len) :
    ∀ (n : Nat) (start : Int), (today - start).toNat ≤ n →
      (windowsFixed n start len today).isSome = true := by
  intro n
  induction n with
  | zero =>
    intro start hle
    have hlt : ¬ start < today := by omega
    unfold windowsFixed
    rw [if_neg hlt]
    rfl
  | succ m ih =>
    intro start hle
    by_cases hlt : start < today
    · have hrec : (today - (start + len + 1)).toNat ≤ m := by omega
      have hs := ih (start + len + 1) hrec
      unfold windowsFixed
      rw [if_pos hlt]
      cases hv : windowsFixed m (start + len + 1) len today with
      | none => rw [hv] at hs; exact absurd hs (by simp)
      | some ws => rfl
    · unfold windowsFixed
      rw [if_neg hlt]
      rfl

lemma windowsFixed_neg_one : ∀ fuel : Nat, windowsFixed fuel 0 (-1) 1 = none := by
  intro fuel
  induction fuel with
  | zero =>
    unfold windowsFixed
    rw [if_pos (by norm_num)]
  | succ n ih =>
    show windowsFixed (n + 1) 0 (-1) 1 = none
    unfold windowsFixed
    rw [if_pos (by norm_num)]
    rw [show (0 : Int) + (-1) + 1 = 0 from by ring, ih]
    rfl

/-- C10: each loop iteration advances the window start by exactly
len + 1 days; with a fixed today and 0 ≤ len the loop terminates (fuel
equal to the day distance suffices), while for len = -1 the start never
advances and no amount of fuel completes the loop; and the configuration
parser (`int(os.getenv("REPORT_LENGTH_DAYS", "7"))`) accepts a negative
value such as "-1" rather than rejecting it (defaulting to 7 when
unset). -/
theorem c10_thm :
    (∀ start today len : Int, 0 ≤ len →
        (windowsFixed (today - start).toNat start len today).isSome = true) ∧
      (∀ fuel : Nat, windowsFixed fuel 0 (-1) 1 = none) ∧
      report_length_days (some "-1") = some (-1) ∧
      report_length_days none = some 7 ∧
      ∀ (fuel : Nat) (start len today : Int) (ws : List (Int × Int)),
        windowsFixed fuel start len today = some ws →
        ∀ i (hi : i + 1 < ws.length),
          (ws.get ⟨i + 1, hi⟩).1 = (ws.get ⟨i, Nat.lt_of_succ_lt hi⟩).1 + (len + 1) := by
  refine ⟨?_, windowsFixed_neg_one, by decide, by decide, ?_⟩
  · intro start today len hlen
    exact windowsFixed_term today len hlen _ start (le_refl _)
  · intro fuel start len today ws h i hi
    rw [(windowsFixed_get fuel start len today ws h (i + 1) hi).1,
      (windowsFixed_get fuel start len today ws h i (Nat.lt_of_succ_lt hi)).1]
    push_cast
    ring

/-- C10 witness: termination at start 0, length 7, today 10, and
divergence of the length -1 loop at fuel 3. -/
theorem c10_witness :
    (windowsFixed ((10 : Int) - 0).toNat 0 7 10).isSome = true ∧
      windowsFixed 3 0 (-1) 1 = none :=
  ⟨c10_thm.1 0 10 7 (by norm_num), c10_thm.2.1 3⟩

lemma rowKey_updateRow (a b : CanonRow) : rowKey (updateRow a b) = rowKey a := rfl

lemma mutFields_updateRow (a b : CanonRow) : mutFields (updateRow a b) = mutFields b := rfl

lemma countKey_cons (a : CanonRow) (t : List CanonRow)
    (k : String × Option String × Option String × Option String) :
    countKey k (a :: t) = (if rowKey a = k then 1 else 0) + countKey k t := by
  unfold countKey
  rw [List.filter_cons]
  by_cases h : rowKey a = k
  · simp [h, Nat.add_comm]
  · simp [h]

lemma countKey_append (t1 t2 : List CanonRow)
    (k : String × Option String × Option String × Option String) :
    countKey k (t1 ++ t2) = countKey k t1 + countKey k t2 := by
  simp [countKey, List.filter_append]

lemma countKey_map_update (t : List CanonRow) (r : CanonRow)
    (k : String × Option String × Option String × Option String) :
    countKey k (t.map (fun x => if rowKey x = rowKey r then updateRow x r else x)) =
      countKey k t := by
  induction t with
  | nil => rfl
  | cons a t ih =>
    rw [List.map_cons, countKey_cons, countKey_cons, ih]
    have hk : rowKey (if rowKey a = rowKey r then updateRow a r else a) = rowKey a := by
      by_cases h : rowKey a = rowKey r
      · rw [if_pos h, rowKey_updateRow]
      · rw [if_neg h]
    rw [hk]

lemma any_key (t : List CanonRow) (r : CanonRow) :
    (t.any fun x => decide (rowKey x = rowKey r)) = true ↔
      0 < countKey (rowKey r) t := by
  induction t with
  | nil => simp [countKey]
  | cons a t ih =>
    rw [List.any_cons, countKey_cons]
    by_cases h : rowKey a = rowKey r
    · simp [h]
    · simp [h, ih]

lemma countKey_add_record_self (t : List CanonRow) (r : CanonRow)
    (huniq : countKey (rowKey r) t ≤ 1) :
    countKey (rowKey r) (add_record t r) = 1 := by
  unfold add_record
  by_cases h : (t.any fun x => decide (rowKey x = rowKey r)) = true
  · rw [if_pos h, countKey_map_update]
    have := (any_key t r).mp h
    omega
  · rw [if_neg h, countKey_append, countKey_cons]
    have h0 : countKey (rowKey r) t = 0 := by
      by_contra hne
      exact h ((any_key t r).mpr (by omega))
    rw [h0, if_pos rfl]
    rfl

lemma countKey_add_record_other (t : List CanonRow) (r : CanonRow)
    (k : String × Option String × Option String × Option String)
    (hk : ¬ k = rowKey r) :
    countKey k (add_record t r) = countKey k t := by
  unfold add_record
  by_cases h : (t.any fun x => decide (rowKey x = rowKey r)) = true
  · rw [if_pos h, countKey_map_update]
  · rw [if_neg h, countKey_append, countKey_cons,
      if_neg (fun e => hk e.symm)]
    simp [countKey]

lemma uniq_add_record (t : List CanonRow) (r : CanonRow)
    (huniq : ∀ k, countKey k t ≤ 1) :
    ∀ k, countKey k (add_record t r) ≤ 1 := by
  intro k
  by_cases hk : k = rowKey r
  · subst hk
    rw [countKey_add_record_self t r (huniq _)]
  · rw [countKey_add_record_other t r k hk]
    exact huniq k

lemma countKey_pos_of_mem {t : List CanonRow} {x : CanonRow} (hx : x ∈ t)
    (k : String × Option String × Option String × Option String)
    (hk : rowKey x = k) : 0 < countKey k t := by
  have hmem : x ∈ t.filter (fun y => decide (rowKey y = k)) :=
    List.mem_filter.mpr ⟨hx, by simp [hk]⟩
  have := List.length_pos.mpr (List.ne_nil_of_mem hmem)
  simpa [countKey] using this

lemma mutFields_add_record (t : List CanonRow) (r : CanonRow) (x : CanonRow)
    (hx : x ∈ add_record t r) (hkey : rowKey x = rowKey r) :
    mutFields x = mutFields r := by
  unfold add_record at hx
  by_cases h : (t.any fun x => decide (rowKey x = rowKey r)) = true
  · rw [if_pos h] at hx
    obtain ⟨y, hy, rfl⟩ := List.mem_map.mp hx
    by_cases hyk : rowKey y = rowKey r
    · rw [if_pos hyk, mutFields_updateRow]
    · rw [if_neg hyk] at hkey
      exact absurd hkey hyk
  · rw [if_neg h] at hx
    rcases List.mem_append.mp hx with hx | hx
    · exact absurd ((any_key t r).mpr (countKey_pos_of_mem hx (rowKey r) hkey)) h
    · rw [List.mem_singleton.mp hx]

/-- C9: against any sink state satisfying the key-uniqueness invariant the
conflict target's unique index enforces, upserting two rows that share the
`(owner_email, date, resource_id, name)` key leaves exactly one stored row
for that key, its mutable fields (`adjusted_cost, usage_hours,
service_name, unblended_cost, usage_quantity, vendor_id, vendor_name,
application_env`) equal to the later row's, and the table never acquires
a duplicate for any key. -/
theorem c9_thm (t : List CanonRow) (r1 r2 : CanonRow)
    (huniq : ∀ k, countKey k t ≤ 1) (_hk : rowKey r1 = rowKey r2) :
    countKey (rowKey r2) (add_record (add_record t r1) r2) = 1 ∧
      (∀ x ∈ add_record (add_record t r1) r2, rowKey x = rowKey r2 →
        mutFields x = mutFields r2) ∧
      ∀ k, countKey k (add_record (add_record t r1) r2) ≤ 1 := by
  have h1 : ∀ k, countKey k (add_record t r1) ≤ 1 := uniq_add_record t r1 huniq
  refine ⟨countKey_add_record_self _ r2 (h1 _), ?_, uniq_add_record _ r2 h1⟩
  intro x hx hkey
  exact mutFields_add_record _ r2 x hx hkey

/-- C9 witness: two concrete rows sharing the key, upserted into the empty
table, leave exactly one stored row for the key. -/
theorem c9_witness :
    countKey (rowKey c9row2) (add_record (add_record [] c9row1) c9row2) = 1 :=
  (c9_thm [] c9row1 c9row2 (fun k => by simp [countKey]) (by decide)).1

lemma parse_result_row_ok (v : Vendor) (row : RawRow) (r : CanonRow)
    (h : parse_result_row v row = Except.ok r) :
    ∃ ubs acs uhs uqs ub ac uh uq,
      row.unblended_cost = some ubs ∧ clean_currency ubs = Except.ok ub ∧
        row.adjusted_cost = some acs ∧ clean_currency acs = Except.ok ac ∧
        row.usage_hours = some uhs ∧ decParseL uhs.toList = Except.ok uh ∧
        row.usage_quantity = some uqs ∧ decParseL uqs.toList = Except.ok uq ∧
        r = { vendor_id := v.vendor_id
              vendor_name := v.vendor_name
              resource_id := row.resource_identifier
              service_name := row.enhanced_service_name
              name := row.tag1
              owner_email :=
                if row.tag13 = some "(not set)" ∨ row.tag13 = some "" ∨ row.tag13 = none
                then "(unknown)" else row.tag13.getD ""
              date := row.date
              unblended_cost := ub
              adjusted_cost := ac
              usage_hours := uh
              usage_quantity := uq
              application_env :=
                if row.tag8 = some "(not set)" ∨ row.tag8 = some "" ∨ row.tag8 = none
                then "(unknown)" else row.tag8.getD "" } := by
  unfold parse_result_row at h
  cases hub : row.unblended_cost with
  | none =>
    rw [hub] at h
    rw [show reqStr none = Except.error Err.noneArg from rfl, except_bind_error] at h
    exact Except.noConfusion h
  | some ubs =>
    rw [hub, show reqStr (some ubs) = Except.ok ubs from rfl, except_bind_ok] at h
    cases hcb : clean_currency ubs with
    | error e =>
      rw [hcb, except_bind_error] at h
      exact Except.noConfusion h
    | ok ub =>
      rw [hcb, except_bind_ok] at h
      cases hac : row.adjusted_cost with
      | none =>
        rw [hac] at h
        rw [show reqStr none = Except.error Err.noneArg from rfl, except_bind_error] at h
        exact Except.noConfusion h
      | some acs =>
        rw [hac, show reqStr (some acs) = Except.ok acs from rfl, except_bind_ok] at h
        cases hca : clean_currency acs with
        | error e =>
          rw [hca, except_bind_error] at h
          exact Except.noConfusion h
        | ok ac =>
          rw [hca, except_bind_ok] at h
          cases huh : row.usage_hours with
          | none =>
            rw [huh] at h
            rw [show reqStr none = Except.error Err.noneArg from rfl,
              except_bind_error] at h
            exact Except.noConfusion h
          | some uhs =>
            rw [huh, show reqStr (some uhs) = Except.ok uhs from rfl,
              except_bind_ok] at h
            cases hdu : decParseL uhs.toList with
            | error e =>
              rw [hdu, except_bind_error] at h
              exact Except.noConfusion h
            | ok uh =>
              rw [hdu, except_bind_ok] at h
              cases huq : row.usage_quantity with
              | none =>
                rw [huq] at h
                rw [show reqStr none = Except.error Err.noneArg from rfl,
                  except_bind_error] at h
                exact Except.noConfusion h
              | some uqs =>
                rw [huq, show reqStr (some uqs) = Except.ok uqs from rfl,
                  except_bind_ok] at h
                cases hdq : decParseL uqs.toList with
                | error e =>
                  rw [hdq, except_bind_error] at h
                  exact Except.noConfusion h
                | ok uq =>
                  rw [hdq, except_bind_ok] at h
                  exact ⟨ubs, acs, uhs, uqs, ub, ac, uh, uq, rfl, hcb, rfl, hca,
                    rfl, hdu, rfl, hdq, (Except.ok.inj h).symm⟩

/-- C4 counterexample: the claim's "exactly when" makes the output marker
imply a sentinel input, but a row whose tag13 is literally the string
"(unknown)" passes through unchanged, so the output equals "(unknown)"
although the input is none of "(not set)", the empty string, or absent. -/
theorem c4_counterexample :
    (parse_result_row c4vendor c4rowNX).map (fun r => r.owner_email) =
        Except.ok "(unknown)" ∧
      ¬(c4rowNX.tag13 = some "(not set)" ∨ c4rowNX.tag13 = some "" ∨
        c4rowNX.tag13 = none) := by
  decide

/-- C4 (amended): whenever tag13 (tag8) is "(not set)", the empty string,
or absent, the owner-email (application-environment) field is
"(unknown)"; any other input value passes through unchanged (so the
output "(unknown)" also arises from the literal input "(unknown)"); all
other dimension fields pass through unchanged and the four cost/usage
fields are the normalizer's output on the corresponding input strings. -/
theorem c4_amended (v : Vendor) (row : RawRow) (r : CanonRow)
    (h : parse_result_row v row = Except.ok r) :
    ((row.tag13 = some "(not set)" ∨ row.tag13 = some "" ∨ row.tag13 = none) →
        r.owner_email = "(unknown)") ∧
      (∀ s, row.tag13 = some s → ¬(s = "(not set)" ∨ s = "") → r.owner_email = s) ∧
      ((row.tag8 = some "(not set)" ∨ row.tag8 = some "" ∨ row.tag8 = none) →
        r.application_env = "(unknown)") ∧
      (∀ s, row.tag8 = some s → ¬(s = "(not set)" ∨ s = "") → r.application_env = s) ∧
      r.vendor_id = v.vendor_id ∧ r.vendor_name = v.vendor_name ∧
      r.resource_id = row.resource_identifier ∧
      r.service_name = row.enhanced_service_name ∧
      r.name = row.tag1 ∧ r.date = row.date ∧
      (∃ s, row.unblended_cost = some s ∧ clean_currency s = Except.ok r.unblended_cost) ∧
      (∃ s, row.adjusted_cost = some s ∧ clean_currency s = Except.ok r.adjusted_cost) ∧
      (∃ s, row.usage_hours = some s ∧ decParseL s.toList = Except.ok r.usage_hours) ∧
      (∃ s, row.usage_quantity = some s ∧ decParseL s.toList = Except.ok r.usage_quantity) := by
  obtain ⟨ubs, acs, uhs, uqs, ub, ac, uh, uq, h1, h2, h3, h4, h5, h6, h7, h8, rfl⟩ :=
    parse_result_row_ok v row r h
  refine ⟨?_, ?_, ?_, ?_, rfl, rfl, rfl, rfl, rfl, rfl,
    ⟨ubs, h1, h2⟩, ⟨acs, h3, h4⟩, ⟨uhs, h5, h6⟩, ⟨uqs, h7, h8⟩⟩
  · intro hs
    show (if _ then _ else _) = _
    rw [if_pos hs]
  · intro s hsome hns
    have hcond : ¬(row.tag13 = some "(not set)" ∨ row.tag13 = some "" ∨
        row.tag13 = none) := by
      intro hd
      rcases hd with h' | h' | h'
      · rw [hsome] at h'
        exact hns (Or.inl (Option.some.inj h'))
      · rw [hsome] at h'
        exact hns (Or.inr (Option.some.inj h'))
      · rw [hsome] at h'
        exact Option.noConfusion h'
    show (if _ then _ else _) = _
    rw [if_neg hcond, hsome]
    rfl
  · intro hs
    show (if _ then _ else _) = _
    rw [if_pos hs]
  · intro s hsome hns
    have hcond : ¬(row.tag8 = some "(not set)" ∨ row.tag8 = some "" ∨
        row.tag8 = none) := by
      intro hd
      rcases hd with h' | h' | h'
      · rw [hsome] at h'
        exact hns (Or.inl (Option.some.inj h'))
      · rw [hsome] at h'
        exact hns (Or.inr (Option.some.inj h'))
      · rw [hsome] at h'
        exact Option.noConfusion h'
    show (if _ then _ else _) = _
    rw [if_neg hcond, hsome]
    rfl

/-- C4 witness: a row with an ordinary owner tag maps to a canonical row
whose owner-email is that tag value, via the pass-through clause of the
amended theorem. -/
theorem c4_witness :
    (parse_result_row c4vendor c4row2).map (fun r => r.owner_email) =
      Except.ok "a@b" := by
  have hok : parse_result_row c4vendor c4row2 =
      Except.ok ⟨"V1", "Acme", some "r", some "svc", some "nm", "a@b", some "d",
        ⟨false, 1, 0⟩, ⟨false, 1, 0⟩, ⟨false, 1, 0⟩, ⟨false, 1, 0⟩, "prod"⟩ := by
    decide
  have h := (c4_amended c4vendor c4row2 _ hok).2.1 "a@b" rfl (by decide)
  rw [hok]
  exact congrArg Except.ok h

lemma runVendor_ok (len today : Int) (v : Vendor) :
    ∀ (fuel : Nat) (env : Nat → WinEnv) (start : Int) (ws : List WinResult),
      runVendor len today v fuel env start = Except.ok ws →
      (¬ start + (ws.length : Int) * (len + 1) < today) ∧
        ∀ j (hj : j < ws.length),
          (ws.get ⟨j, hj⟩).win_start = start + (j : Int) * (len + 1) ∧
            (ws.get ⟨j, hj⟩).win_end = (ws.get ⟨j, hj⟩).win_start + len ∧
            (ws.get ⟨j, hj⟩).win_start < today ∧
            ∃ tr st, wait_for_job ((env j).polls) = some (tr, st) ∧
              ((st = "finished" ∧ (ws.get ⟨j, hj⟩).fetched = true ∧
                  mapRows v ((env j).results) = Except.ok ((ws.get ⟨j, hj⟩).rows)) ∨
                (¬ st = "finished" ∧ (ws.get ⟨j, hj⟩).fetched = false ∧
                  (ws.get ⟨j, hj⟩).rows = [])) := by
  intro fuel
  induction fuel with
  | zero =>
    intro env start ws h
    by_cases hlt : start < today
    · unfold runVendor at h
      rw [if_pos hlt] at h
      exact Except.noConfusion h
    · unfold runVendor at h
      rw [if_neg hlt] at h
      obtain rfl := (Except.ok.inj h).symm
      constructor
      · simpa using hlt
      · intro j hj
        exact absurd hj (by simp)
  | succ n ih =>
    intro env start ws h
    by_cases hlt : start < today
    · unfold runVendor at h
      rw [if_pos hlt] at h
      cases hw : wait_for_job ((env 0).polls) with
      | none =>
        rw [hw] at h
        exact Except.noConfusion h
      | some p =>
        obtain ⟨tr, st⟩ := p
        rw [hw] at h
        dsimp only at h
        by_cases hst : st = "finished"
        · rw [if_pos hst] at h
          cases hm : mapRows v ((env 0).results) with
          | error e =>
            rw [hm, except_bind_error] at h
            exact Except.noConfusion h
          | ok rows0 =>
            rw [hm, except_bind_ok] at h
            cases hr : runVendor len today v n (fun k => env (k + 1)) (start + len + 1) with
            | error e =>
              rw [hr, except_bind_error] at h
              exact Except.noConfusion h
            | ok rest =>
              rw [hr, except_bind_ok] at h
              obtain rfl := (Except.ok.inj h).symm
              obtain ⟨ihbound, ihall⟩ := ih (fun k => env (k + 1)) (start + len + 1) rest hr
              constructor
              · rw [List.length_cons,
                  show ((rest.length + 1 : Nat) : Int) = (rest.length : Int) + 1 from by
                    push_cast; ring,
                  show start + ((rest.length : Int) + 1) * (len + 1) =
                    start + len + 1 + (rest.length : Int) * (len + 1) from by ring]
                exact ihbound
              · intro j hj
                cases j with
                | zero =>
                  refine ⟨by simp, rfl, hlt, tr, st, hw, Or.inl ⟨hst, rfl, ?_⟩⟩
                  rw [hm]
                  rfl
                | succ k =>
                  have hk : k < rest.length := by simpa using hj
                  obtain ⟨ihs, ihe, ihlt, ihex⟩ := ihall k hk
                  have hcast : ((k + 1 : Nat) : Int) = (k : Int) + 1 := by push_cast; ring
                  have harith : start + ((k : Int) + 1) * (len + 1) =
                      start + len + 1 + (k : Int) * (len + 1) := by ring
                  refine ⟨?_, ?_, ?_, ihex⟩
                  · show (rest.get ⟨k, hk⟩).win_start = _
                    rw [ihs, hcast, harith]
                  · show (rest.get ⟨k, hk⟩).win_end = (rest.get ⟨k, hk⟩).win_start + len
                    exact ihe
                  · show (rest.get ⟨k, hk⟩).win_start < today
                    exact ihlt
        · rw [if_neg hst] at h
          cases hr : runVendor len today v n (fun k => env (k + 1)) (start + len + 1) with
          | error e =>
            rw [hr, except_bind_error] at h
            exact Except.noConfusion h
          | ok rest =>
            rw [hr, except_bind_ok] at h
            obtain rfl := (Except.ok.inj h).symm
            obtain ⟨ihbound, ihall⟩ := ih (fun k => env (k + 1)) (start + len + 1) rest hr
            constructor
            · rw [List.length_cons,
                show ((rest.length + 1 : Nat) : Int) = (rest.length : Int) + 1 from by
                  push_cast; ring,
                show start + ((rest.length : Int) + 1) * (len + 1) =
                  start + len + 1 + (rest.length : Int) * (len + 1) from by ring]
              exact ihbound
            · intro j hj
              cases j with
              | zero =>
                exact ⟨by simp, rfl, hlt, tr, st, hw, Or.inr ⟨hst, rfl, rfl⟩⟩
              | succ k =>
                have hk : k < rest.length := by simpa using hj
                obtain ⟨ihs, ihe, ihlt, ihex⟩ := ihall k hk
                have hcast : ((k + 1 : Nat) : Int) = (k : Int) + 1 := by push_cast; ring
                have harith : start + ((k : Int) + 1) * (len + 1) =
                    start + len + 1 + (k : Int) * (len + 1) := by ring
                refine ⟨?_, ?_, ?_, ihex⟩
                · show (rest.get ⟨k, hk⟩).win_start = _
                  rw [ihs, hcast, harith]
                · show (rest.get ⟨k, hk⟩).win_end = (rest.get ⟨k, hk⟩).win_start + len
                  exact ihe
                · show (rest.get ⟨k, hk⟩).win_start < today
                  exact ihlt
    · unfold runVendor at h
      rw [if_neg hlt] at h
      obtain rfl := (Except.ok.inj h).symm
      constructor
      · simpa using hlt
      · intro j hj
        exact absurd hj (by simp)

lemma get_data_ok (len today start : Int) (fuel : Nat) :
    ∀ (vs : List Vendor) (envs : Nat → Nat → WinEnv)
      (res : List (Vendor × List WinResult)),
      get_data len today start fuel envs vs = Except.ok res →
      res.length = vs.length ∧
        ∀ b (hb : b < res.length),
          runVendor len today (res.get ⟨b, hb⟩).1 fuel (envs b) start =
            Except.ok (res.get ⟨b, hb⟩).2 := by
  intro vs
  induction vs with
  | nil =>
    intro envs res h
    unfold get_data at h
    obtain rfl := (Except.ok.inj h).symm
    exact ⟨rfl, fun b hb => absurd hb (by simp)⟩
  | cons v vs ih =>
    intro envs res h
    unfold get_data at h
    cases hrv : runVendor len today v fuel (envs 0) start with
    | error e =>
      rw [hrv, except_bind_error] at h
      exact Except.noConfusion h
    | ok w =>
      rw [hrv, except_bind_ok] at h
      cases hgd : get_data len today start fuel (fun k => envs (k + 1)) vs with
      | error e =>
        rw [hgd, except_bind_error] at h
        exact Except.noConfusion h
      | ok rest =>
        rw [hgd, except_bind_ok] at h
        obtain rfl := (Except.ok.inj h).symm
        obtain ⟨hlen, hall⟩ := ih (fun k => envs (k + 1)) rest hgd
        refine ⟨by simp [hlen], ?_⟩
        intro b hb
        cases b with
        | zero => exact hrv
        | succ k =>
          have hk : k < rest.length := by simpa using hb
          exact hall k hk

/-- C3: whenever the orchestration completes, it completes with one entry
per vendor account in order; for each vendor the window loop ran to its
bound (the errored windows did not shorten it); and each window's record
depends only on that window's own job: a window whose terminal status is
not "finished" (i.e. "errored") got no results fetch and contributed no
rows, while every finished window of any vendor was fetched and yielded
its mapped rows.  One errored window therefore never aborts the
multi-window, multi-vendor run nor suppresses other windows' rows. -/
theorem c3_thm {len today start : Int} {fuel : Nat} {envs : Nat → Nat → WinEnv}
    {vs : List Vendor} {res : List (Vendor × List WinResult)}
    (hrun : get_data len today start fuel envs vs = Except.ok res) :
    res.length = vs.length ∧
      ∀ b (hb : b < res.length),
        (¬ start + (((res.get ⟨b, hb⟩).2.length : Nat) : Int) * (len + 1) < today) ∧
          ∀ j (hj : j < (res.get ⟨b, hb⟩).2.length),
            ((res.get ⟨b, hb⟩).2.get ⟨j, hj⟩).win_start < today ∧
              ∃ tr st, wait_for_job ((envs b j).polls) = some (tr, st) ∧
                ((st = "finished" ∧
                    ((res.get ⟨b, hb⟩).2.get ⟨j, hj⟩).fetched = true ∧
                    mapRows (res.get ⟨b, hb⟩).1 ((envs b j).results) =
                      Except.ok (((res.get ⟨b, hb⟩).2.get ⟨j, hj⟩).rows)) ∨
                  (¬ st = "finished" ∧
                    ((res.get ⟨b, hb⟩).2.get ⟨j, hj⟩).fetched = false ∧
                    ((res.get ⟨b, hb⟩).2.get ⟨j, hj⟩).rows = [])) := by
  obtain ⟨hlen, hall⟩ := get_data_ok len today start fuel vs envs res hrun
  refine ⟨hlen, ?_⟩
  intro b hb
  obtain ⟨hbound, hwin⟩ := runVendor_ok len today (res.get ⟨b, hb⟩).1 fuel (envs b)
    start (res.get ⟨b, hb⟩).2 (hall b hb)
  refine ⟨hbound, ?_⟩
  intro j hj
  obtain ⟨_, _, hlt', hex⟩ := hwin j hj
  exact ⟨hlt', hex⟩

/-- C3 witness: a concrete run with the first window errored and the
second finished — the run completes, the errored window is unfetched with
no rows, and the later window's rows are still yielded. -/
theorem c3_witness :
    get_data 0 2 0 2 c3envs [⟨"V1", "Acme"⟩] = Except.ok c3res ∧
      ((c3res.get ⟨0, by decide⟩).2.get ⟨0, by decide⟩).fetched = false ∧
      ((c3res.get ⟨0, by decide⟩).2.get ⟨1, by decide⟩).rows = [c3out] := by
  have hrun : get_data 0 2 0 2 c3envs [⟨"V1", "Acme"⟩] = Except.ok c3res := by decide
  refine ⟨hrun, ?_, by decide⟩
  obtain ⟨tr, st, hw, hc⟩ := (((c3_thm hrun).2 0 (by decide)).2 0 (by decide)).2
  have hv : wait_for_job ((c3envs 0 0).polls) = some (pollRounds 2, "errored") := by
    decide
  rw [hv] at hw
  obtain ⟨h1, h2⟩ := Prod.mk.injEq .. |>.mp (Option.some.inj hw)
  subst h2
  rcases hc with ⟨hfin, _, _⟩ | ⟨_, hf, _⟩
  · exact absurd hfin (by decide)
  · exact hf

